import Mathlib

/-!
Verification development for the tfgs-api-hunter crawler (src/app/main.py).

The Python source is shallowly embedded below.  HTML documents are
represented by the values the BeautifulSoup queries in the source extract
from them (element texts, link hrefs, block sequences); everything from
that point on — author resolution, the attribute-table dispatch, the
date-format fallback chains (a model of the arrow library's parser for the
four concrete format strings the source uses), the downloads cursor, the
review-block parser, the pydantic required-field validation, the pony ORM
write path and the crawl cycle's drop-then-repopulate structure — is
translated directly from the source.  All definitions are executable and
kernel-reducible (structural or fuel-bounded recursion only).
-/

deriving instance DecidableEq for Except

namespace TFGS

/-! ## Python string primitives (modelled on `List Char`)

Python `str` values are modelled as Lean `String`; the helpers below
operate on the underlying character list so that every definition reduces
in the kernel.  Inputs are ASCII (the source decodes pages as latin-1 and
all relevant markers are ASCII), so `lower` is ASCII lowercasing. -/

/-- Python whitespace for `str.strip` / `\s`. -/
def isPyWs (c : Char) : Bool :=
  c = ' ' || c = '\t' || c = '\n' || c = '\r' || c = '\x0b' || c = '\x0c'

/-- Drop leading characters satisfying `p` (helper for strips). -/
def dropWhileL (p : Char → Bool) : List Char → List Char
  | [] => []
  | c :: cs => if p c then dropWhileL p cs else c :: cs

/-- Python `str.strip()` on a char list: drop leading and trailing whitespace. -/
def pyStripL (s : List Char) : List Char :=
  (dropWhileL isPyWs (dropWhileL isPyWs s).reverse).reverse

/-- Python `str.lstrip(chars)`: drop leading characters that are members of
the *set* of characters of `chars` (not a prefix match). -/
def pyLstripSetL (chars : List Char) (s : List Char) : List Char :=
  dropWhileL (fun c => chars.contains c) s

/-- ASCII lowercase of one character (Python `str.lower` on ASCII input). -/
def asciiLower (c : Char) : Char :=
  if 'A' ≤ c && c ≤ 'Z' then Char.ofNat (c.toNat + 32) else c

/-- Python `str.replace(" ", "_")` composed with `.lower()`: the slug
normalization `text.lower().replace(" ", "_")` used throughout the source. -/
def slugifyL (s : List Char) : List Char :=
  s.map (fun c => if c = ' ' then '_' else asciiLower c)

/-- `l₂` occurs as a contiguous sublist starting at the head of `l₁`. -/
def isPrefixL : List Char → List Char → Bool
  | [], _ => true
  | _ :: _, [] => false
  | c :: cs, d :: ds => c = d && isPrefixL cs ds

/-- Python `needle in haystack` (substring containment). -/
def containsSubL (needle : List Char) : List Char → Bool
  | [] => isPrefixL needle []
  | c :: cs => isPrefixL needle (c :: cs) || containsSubL needle cs

/-- Python `str.split(sep)` for a non-empty separator, fuel-bounded so the
kernel can evaluate it (fuel = length of the string suffices). -/
def pySplitAux (sep : List Char) : Nat → List Char → List Char → List (List Char)
  | 0, acc, rest => [acc.reverse ++ rest]
  | fuel + 1, acc, rest =>
    if isPrefixL sep rest then
      acc.reverse :: pySplitAux sep fuel [] (rest.drop sep.length)
    else
      match rest with
      | [] => [acc.reverse]
      | c :: cs => pySplitAux sep fuel (c :: acc) cs

/-- Python `str.split(sep)` (leftmost, non-overlapping). -/
def pySplitL (sep : List Char) (s : List Char) : List (List Char) :=
  pySplitAux sep (s.length + 1) [] s

/-- Digit test and value. -/
def isDigitC (c : Char) : Bool := '0' ≤ c && c ≤ '9'

def digitVal (c : Char) : Nat := c.toNat - '0'.toNat

/-- Decimal value of a digit list (most significant first). -/
def digitsVal (ds : List Char) : Nat :=
  ds.foldl (fun acc c => acc * 10 + digitVal c) 0

/-- Python `int(s)` for ASCII input without underscores: strips whitespace,
accepts one optional sign, then one or more digits; anything else raises
`ValueError` (modelled as `none`). -/
def pyIntL (s : List Char) : Option Int :=
  let t := pyStripL s
  match t with
  | '-' :: ds =>
    if ds ≠ [] && ds.all isDigitC then some (-(digitsVal ds : Int)) else none
  | '+' :: ds =>
    if ds ≠ [] && ds.all isDigitC then some (digitsVal ds : Int) else none
  | ds =>
    if ds ≠ [] && ds.all isDigitC then some (digitsVal ds : Int) else none

/-! String-level wrappers. -/

def pyStrip (s : String) : String := String.mk (pyStripL s.data)

def pyLstripSet (chars s : String) : String := String.mk (pyLstripSetL chars.data s.data)

def slugify (s : String) : String := String.mk (slugifyL s.data)

def containsSub (haystack needle : String) : Bool := containsSubL needle.data haystack.data

def pySplit (s sep : String) : List String := (pySplitL sep.data s.data).map String.mk

def pyInt (s : String) : Option Int := pyIntL s.data

/-! ## Model of the arrow library's datetime parser

The source calls `arrow.get(string, fmt)` with four concrete format
strings.  arrow compiles a format into a regex (unrecognized characters,
such as the pipes in `"|DD MMM YYYY|, HH:mm"`, become literals), searches
for it anywhere in the input bounded by its word-boundary lookarounds
(leftmost match wins, month abbreviations case-insensitive), and then
builds a `datetime`, which raises for out-of-range components.  Failure of
either stage raises, which the call sites observe as one exception. -/

/-- A naive datetime as carried by `arrow.get(...).datetime` for these
formats (no timezone tokens occur in them). -/
structure DT where
  year : Nat
  month : Nat
  day : Nat
  hour : Nat
  minute : Nat
  second : Nat
deriving DecidableEq, Repr

def isLeap (y : Nat) : Bool := y % 4 = 0 && (y % 100 ≠ 0 || y % 400 = 0)

def daysInMonth (y m : Nat) : Nat :=
  if m = 2 then (if isLeap y then 29 else 28)
  else if m = 4 || m = 6 || m = 9 || m = 11 then 30
  else 31

/-- Validation performed by `datetime(...)` when arrow builds the result. -/
def validDT (d : DT) : Bool :=
  1 ≤ d.year && d.year ≤ 9999 && 1 ≤ d.month && d.month ≤ 12 &&
  1 ≤ d.day && d.day ≤ daysInMonth d.year d.month &&
  d.hour ≤ 23 && d.minute ≤ 59 && d.second ≤ 59

inductive DateField
  | year | month | day | hour | minute | second
deriving DecidableEq

/-- One token of a compiled arrow format: a literal character, a
two-digit field (DD/MM/HH/mm/ss), a four-digit field (YYYY), or a
case-insensitive English month abbreviation (MMM). -/
inductive FTok
  | lit (c : Char)
  | d2 (f : DateField)
  | d4 (f : DateField)
  | mon3
deriving DecidableEq

def setField (d : DT) (f : DateField) (v : Nat) : DT :=
  match f with
  | .year => { d with year := v }
  | .month => { d with month := v }
  | .day => { d with day := v }
  | .hour => { d with hour := v }
  | .minute => { d with minute := v }
  | .second => { d with second := v }

def monthAbbrs : List (List Char × Nat) :=
  [(['j','a','n'], 1), (['f','e','b'], 2), (['m','a','r'], 3), (['a','p','r'], 4),
   (['m','a','y'], 5), (['j','u','n'], 6), (['j','u','l'], 7), (['a','u','g'], 8),
   (['s','e','p'], 9), (['o','c','t'], 10), (['n','o','v'], 11), (['d','e','c'], 12)]

/-- Match a token sequence at the current position (all tokens are fixed
width, mirroring the compiled regex, which never backtracks here). -/
def matchToks : List FTok → DT → List Char → Option (DT × List Char)
  | [], d, rest => some (d, rest)
  | .lit c :: ts, d, rest =>
    match rest with
    | c2 :: cs => if c2 = c then matchToks ts d cs else none
    | [] => none
  | .d2 f :: ts, d, rest =>
    match rest with
    | a :: b :: cs =>
      if isDigitC a && isDigitC b then matchToks ts (setField d f (digitsVal [a, b])) cs
      else none
    | _ => none
  | .d4 f :: ts, d, rest =>
    match rest with
    | a :: b :: c2 :: e :: cs =>
      if isDigitC a && isDigitC b && isDigitC c2 && isDigitC e then
        matchToks ts (setField d f (digitsVal [a, b, c2, e])) cs
      else none
    | _ => none
  | .mon3 :: ts, d, rest =>
    match rest with
    | a :: b :: c2 :: cs =>
      match monthAbbrs.find? (fun p => p.1 = [asciiLower a, asciiLower b, asciiLower c2]) with
      | some p => matchToks ts (setField d .month p.2) cs
      | none => none
    | _ => none

/-- Punctuation arrow's word boundaries allow adjacent to a match. -/
def arrowPunct (c : Char) : Bool :=
  c = ',' || c = '.' || c = ';' || c = ':' || c = '?' || c = '!' ||
  c = Char.ofNat 34 || c = Char.ofNat 39 || c = Char.ofNat 96 ||
  c = '[' || c = ']' || c = Char.ofNat 123 || c = Char.ofNat 125 ||
  c = '(' || c = ')' || c = '<' || c = '>'

/-- arrow's starting word boundary: the preceding character (if any) must
be whitespace or allowed punctuation, and the two preceding characters
must not both be non-whitespace.  `before` holds the preceding characters
in reverse order. -/
def startBoundary (before : List Char) : Bool :=
  match before with
  | [] => true
  | p1 :: rest =>
    (isPyWs p1 || arrowPunct p1) &&
    (match rest with
     | [] => true
     | p2 :: _ => isPyWs p2 || isPyWs p1)

/-- arrow's ending word boundary: after the match, optionally one allowed
punctuation character, then end of string or whitespace. -/
def endBoundary (rest : List Char) : Bool :=
  match rest with
  | [] => true
  | c :: cs =>
    isPyWs c ||
    (arrowPunct c && (match cs with | [] => true | c2 :: _ => isPyWs c2))

/-- Attempt the pattern at one position. -/
def tryMatchAt (toks : List FTok) (before rest : List Char) : Option DT :=
  if startBoundary before then
    match matchToks toks ⟨1, 1, 1, 0, 0, 0⟩ rest with
    | some (d, after) => if endBoundary after then some d else none
    | none => none
  else none

/-- Leftmost bounded occurrence of the pattern (regex `search`). -/
def arrowSearchAux (toks : List FTok) : List Char → List Char → Option DT
  | before, [] => tryMatchAt toks before []
  | before, c :: cs =>
    match tryMatchAt toks before (c :: cs) with
    | some d => some d
    | none => arrowSearchAux toks (c :: before) cs

/-- `arrow.get(s, fmt)` for the format token list `toks`: `none` models the
raised exception (match failure or out-of-range datetime components). -/
def arrowGet (toks : List FTok) (s : String) : Option DT :=
  match arrowSearchAux toks [] s.data with
  | some d => if validDT d then some d else none
  | none => none

/-- Format `"|DD MMM YYYY|, HH:mm"`: the pipes are unrecognized tokens and
therefore literal characters in the compiled pattern. -/
def fmtPipeDMY : List FTok :=
  [.lit '|', .d2 .day, .lit ' ', .mon3, .lit ' ', .d4 .year, .lit '|',
   .lit ',', .lit ' ', .d2 .hour, .lit ':', .d2 .minute]

/-- Format `"MM/DD/YYYY"`. -/
def fmtMDY : List FTok :=
  [.d2 .month, .lit '/', .d2 .day, .lit '/', .d4 .year]

/-- Format `"YYYY-MM-DD HH:mm:ss"`. -/
def fmtYMDHMS : List FTok :=
  [.d4 .year, .lit '-', .d2 .month, .lit '-', .d2 .day, .lit ' ',
   .d2 .hour, .lit ':', .d2 .minute, .lit ':', .d2 .second]

/-- Format `"MM/DD/YYYY HH:mm:ss"`. -/
def fmtMDYHMS : List FTok :=
  [.d2 .month, .lit '/', .d2 .day, .lit '/', .d4 .year, .lit ' ',
   .d2 .hour, .lit ':', .d2 .minute, .lit ':', .d2 .second]

/-- The Release Date / Last Update fallback chain exactly as written in
`parse_game_page`: both formats are attempted unconditionally, each
success assigns the field, so a success of the second format
(`MM/DD/YYYY`) overwrites a success of the first. -/
def dateFieldUpdate (old : Option DT) (s : String) : Option DT :=
  let v1 := match arrowGet fmtPipeDMY s with
    | some d => some d
    | none => old
  match arrowGet fmtMDY s with
  | some d => some d
  | none => v1

/-! ## Review parsing (the reviews loop of `parse_game_page`) -/

/-- A parsed review (pydantic model `PReview`). -/
structure PReview where
  id : Nat
  author : String
  version : String
  date : DT
  text : String
deriving DecidableEq, Repr

/-- Occurrence positions of `sep` in `s` (for the regex backtracking model). -/
def subOccs (sep : List Char) : List Char → Nat → List Nat
  | [], _ => []
  | c :: cs, i =>
    (if isPrefixL sep (c :: cs) then [i] else []) ++ subOccs sep cs (i + 1)

/-- Greedy split of `re.match(r"(.+) on (.*)")` after the literal prefix:
the group boundary is the *last* occurrence of `sep` preceded by at least
one character; `none` models a failed match. -/
def greedySplitOn (sep s : List Char) : Option (List Char × List Char) :=
  match ((subOccs sep s 0).filter (fun j => 1 ≤ j)).getLast? with
  | none => none
  | some j => some (s.take j, s.drop (j + sep.length))

/-- `[line for line in text.split("\n") if line.strip()]` — the non-blank
lines of a review block, each kept verbatim. -/
def pyLines (b : String) : List String :=
  ((pySplitL ['\n'] b.data).filter (fun l => pyStripL l ≠ [])).map String.mk

/-- `"\n".join(lines)`. -/
def joinLines (ls : List String) : String :=
  String.mk (List.intercalate ['\n'] (ls.map String.data))

/-- One iteration of the reviews loop, at enumerate index `i`.  `.ok none`
models `continue` (block discarded); `.error` models an uncaught exception
(empty block, or a date that fails both formats — the second `arrow.get`
is outside the `try`). -/
def processBlock (i : Nat) (b : String) : Except String (Option PReview) :=
  match pyLines b with
  | [] => .error "IndexError: list index out of range"
  | l0 :: rest0 =>
    if ¬ containsSub l0 "Review by" then .ok none
    else
      match rest0 with
      | [] => .error "IndexError: list index out of range"
      | l1 :: rest1 =>
        let author := pyStrip (pyLstripSet "Review by" l0)
        if ¬ (isPrefixL "Version reviewed: ".data l1.data) then .ok none
        else
          match greedySplitOn " on ".data (l1.data.drop "Version reviewed: ".length) with
          | none => .ok none
          | some (v, dstr) =>
            match (match arrowGet fmtYMDHMS (String.mk dstr) with
                   | some d => Except.ok d
                   | none =>
                     match arrowGet fmtMDYHMS (String.mk dstr) with
                     | some d => Except.ok d
                     | none => Except.error "ParserError: could not match format") with
            | .error e => .error e
            | .ok date =>
              let text := joinLines rest1
              if text = "" then .ok none
              else .ok (some { id := i, author := author, version := String.mk v,
                                date := date, text := text })

/-- The reviews loop over the reversed block list (the page lists reviews
newest-first; `reversed(...)` makes the iteration oldest-first), with the
enumerate index counting every block, discarded or not. -/
def parseReviewsAux : Nat → List String → Except String (List PReview)
  | _, [] => .ok []
  | i, b :: bs =>
    match processBlock i b with
    | .error e => .error e
    | .ok r =>
      match parseReviewsAux (i + 1) bs with
      | .error e => .error e
      | .ok rest =>
        match r with
        | none => .ok rest
        | some rv => .ok (rv :: rest)

/-- `data["reviews"]` as produced by `parse_game_page` from the
`reviewcontent` blocks in page order (newest first). -/
def parseReviews (blocks : List String) : Except String (List PReview) :=
  parseReviewsAux 0 blocks.reverse

/-! ## Game-page parsing (`parse_game_page`)

The BeautifulSoup queries are represented by their results: a
`GamePageInput` holds exactly the element texts, hyperlinks and block
sequences the source reads from the two HTML documents. -/

/-- Left-to-right effectful fold over a Python `for` loop whose body may
raise: the first exception aborts the loop. -/
def foldlE (f : β → α → Except String β) : β → List α → Except String β
  | b, [] => .ok b
  | b, a :: as =>
    match f b a with
    | .error e => .error e
    | .ok b2 => foldlE f b2 as

/-- Left-to-right effectful map; the first exception aborts. -/
def mapME (f : α → Except String β) : List α → Except String (List β)
  | [] => .ok []
  | a :: as =>
    match f a with
    | .error e => .error e
    | .ok b =>
      match mapME f as with
      | .error e => .error e
      | .ok bs => .ok (b :: bs)

/-- A hyperlink: its text and its `href` attribute. -/
structure Link where
  text : String
  href : String
deriving DecidableEq, Repr

/-- One `viewgameinfo` box of the attribute table: label text, value text,
and the hyperlinks inside the value element. -/
structure InfoBox where
  left : String
  rightText : String
  rightLinks : List Link
deriving DecidableEq, Repr

/-- One child of the `downloads` container: a `center` version header, a
`div` file block (with the values the source extracts from it: the
`dldeadlink` anchor if any, the `dltext` href, the `dlnotes` image title
if any, the `dlreportdeadlink` href), or any other node (skipped by the
tag-name dispatch). -/
inductive DlBlock
  | header (text : String)
  | file (delete : Option String) (link : String) (note : Option String) (reportHref : String)
  | other
deriving DecidableEq, Repr

/-- A download-link dict as built in the downloads loop. -/
structure FileLink where
  delete : Option String
  link : String
  note : Option String
  report : String
deriving DecidableEq, Repr

/-- `urljoin(config.BASE_URL, href)` for the href shapes that occur
(absolute URL kept; root-relative and relative paths resolved against
`https://tfgames.site`). -/
def urljoinBase (h : String) : String :=
  if isPrefixL "http://".data h.data || isPrefixL "https://".data h.data then h
  else if isPrefixL ['/'] h.data then "https://tfgames.site" ++ h
  else "https://tfgames.site/" ++ h

/-- The inputs `parse_game_page` reads from the detail page. -/
structure GamePageInput where
  title : String
  bylineLinks : List Link
  bylineText : String
  infoBoxes : List InfoBox
  downloads : List DlBlock
  tabs : List (String × String × String)
  playOnline : Option String

/-- ASCII `str.lower()`. -/
def lowerStr (s : String) : String := String.mk (s.data.map asciiLower)

/-- Python dict assignment `d[k] = v` on an insertion-ordered assoc list. -/
def assocSet (l : List (String × α)) (k : String) (v : α) : List (String × α) :=
  match l with
  | [] => [(k, v)]
  | (k2, v2) :: rest => if k2 = k then (k, v) :: rest else (k2, v2) :: assocSet rest k v

/-- `defaultdict(list)` append `d[k].append(v)`. -/
def assocAppend (l : List (String × List α)) (k : String) (v : α) : List (String × List α) :=
  match l with
  | [] => [(k, [v])]
  | (k2, vs) :: rest =>
    if k2 = k then (k2, vs ++ [v]) :: rest else (k2, vs) :: assocAppend rest k v

/-- The mutable `data` accumulator of `parse_game_page`.  Keys that the
source may never create are `Option`; `likes`, `authors`, `versions`,
`play_online` and `reviews` are initialized up front exactly as in the
source.  `themesPresent` records whether `data["themes"]` was created
(it is created by the first theme assignment). -/
structure DataAcc where
  title : String
  authors : List (String × Int)
  gameEngine : Option String
  contentRating : Option String
  language : Option String
  releaseDate : Option DT
  lastUpdate : Option DT
  version : Option String
  developmentStage : Option String
  likes : Int
  contest : Option String
  origPcGender : Option String
  themesPresent : Bool
  adultThemes : List (String × Int)
  tfThemes : List (String × Int)
  mmThemes : List (String × Int)
  thread : Option String
  versions : List (String × List FileLink)
  sections : List (String × String × String)
  playOnline : Option String
  reviews : List PReview
deriving DecidableEq, Repr

def initData (title : String) : DataAcc :=
  { title := pyStrip title, authors := [], gameEngine := none, contentRating := none,
    language := none, releaseDate := none, lastUpdate := none, version := none,
    developmentStage := none, likes := 0, contest := none, origPcGender := none,
    themesPresent := false, adultThemes := [], tfThemes := [], mmThemes := [],
    thread := none, versions := [], sections := [], playOnline := none, reviews := [] }

/-- The author loop over byline hyperlinks: each link's id is read from the
`u=` query parameter; a per-link failure is swallowed by
`except: continue`. -/
def authorsFromLinks (links : List Link) : List (String × Int) :=
  links.foldl (fun acc l =>
    match (pySplit l.href "u=").get? 1 with
    | none => acc
    | some t =>
      match pyInt t with
      | none => acc
      | some n => assocSet acc (slugify l.text) n) []

/-- Author resolution.  With hyperlinks, ids come from the links.  Without,
the byline text is slugified and looked up among the `GameAuthor` rows
(`pony`'s `get(name=...)`): zero rows give `None.id` (`AttributeError`),
several raise, and the bare `except` turns both into `return` — the record
is discarded (`none`). -/
def parseAuthors (authorsTax : List (Int × String)) (pg : GamePageInput) :
    Option (List (String × Int)) :=
  if pg.bylineLinks ≠ [] then some (authorsFromLinks pg.bylineLinks)
  else
    let author := slugify (pyStrip (pyLstripSet "by" (pyStrip pg.bylineText)))
    match authorsTax.filter (fun r => r.2 = author) with
    | [r] => some [(author, r.1)]
    | _ => none

/-- `int(link.get("href").split(param + "=")[1])` — uncaught in the theme
branches, so failure is an exception. -/
def themeId (param : String) (href : String) : Except String Int :=
  match (pySplit href (param ++ "=")).get? 1 with
  | none => .error "IndexError: list index out of range"
  | some t =>
    match pyInt t with
    | none => .error "ValueError: invalid literal for int"
    | some n => .ok n

def themePairs (param : String) (links : List Link) : Except String (List (String × Int)) :=
  mapME (fun l => (themeId param l.href).map (fun n => (l.text, n))) links

/-- One iteration of the attribute-table loop (`for box in ... viewgameinfo`).
The `Likes` branch calls `int()` without a `try`. -/
def processBox (acc : DataAcc) (box : InfoBox) : Except String DataAcc :=
  if box.left = "Engine" then .ok { acc with gameEngine := some (slugify box.rightText) }
  else if box.left = "Rating" then .ok { acc with contentRating := some (slugify box.rightText) }
  else if box.left = "Language" then .ok { acc with language := some box.rightText }
  else if box.left = "Release Date" then
    .ok { acc with releaseDate := dateFieldUpdate acc.releaseDate box.rightText }
  else if box.left = "Last Update" then
    .ok { acc with lastUpdate := dateFieldUpdate acc.lastUpdate box.rightText }
  else if box.left = "Version" then .ok { acc with version := some box.rightText }
  else if box.left = "Development" then .ok { acc with developmentStage := some box.rightText }
  else if box.left = "Likes" then
    match pyInt box.rightText with
    | some n => .ok { acc with likes := n }
    | none => .error "ValueError: invalid literal for int"
  else if box.left = "Contest" then
    .ok { acc with contest := if box.rightText = "None" then none else some box.rightText }
  else if box.left = "Orig PC Gender" then .ok { acc with origPcGender := some box.rightText }
  else if box.left = "Adult Themes" then
    match themePairs "adult" box.rightLinks with
    | .error e => .error e
    | .ok pairs =>
      .ok { acc with
        themesPresent := acc.themesPresent || box.rightLinks ≠ [],
        adultThemes := pairs.foldl (fun m p => assocSet m p.1 p.2) acc.adultThemes }
  else if box.left = "TF Themes" then
    match themePairs "transformation" box.rightLinks with
    | .error e => .error e
    | .ok pairs =>
      .ok { acc with
        themesPresent := acc.themesPresent || box.rightLinks ≠ [],
        tfThemes := pairs.foldl (fun m p => assocSet m p.1 p.2) acc.tfThemes }
  else if box.left = "Multimedia" then
    match themePairs "multimedia" box.rightLinks with
    | .error e => .error e
    | .ok pairs =>
      .ok { acc with
        themesPresent := acc.themesPresent || box.rightLinks ≠ [],
        mmThemes := pairs.foldl (fun m p => assocSet m p.1 p.2) acc.mmThemes }
  else if box.left = "Discussion/Help" then
    match box.rightLinks with
    | [] => .error "AttributeError: NoneType has no attribute get"
    | l :: _ => .ok { acc with thread := some l.href }
  else .ok acc

/-- `container.text.lstrip("Version:").strip()` for a version header. -/
def cleanVersionHeader (t : String) : String := pyStrip (pyLstripSet "Version:" t)

/-- One iteration of the downloads loop.  The local `version` cursor starts
*unbound* (`none`): a file block before any header evaluates an unassigned
local (`UnboundLocalError`).  With a bound but empty cursor, `version or
data["version"]` falls back to the top-level version; if that key was never
set, `data["version"]` is a fresh empty `defaultdict`, whose use as a dict
key raises `TypeError`. -/
def processDl (topVersion : Option String) (cursor : Option String)
    (versions : List (String × List FileLink)) :
    DlBlock → Except String (Option String × List (String × List FileLink))
  | .header t => .ok (some (cleanVersionHeader t), versions)
  | .file del lnk nt rep =>
    match cursor with
    | none => .error "UnboundLocalError: local variable referenced before assignment"
    | some v =>
      let fl : FileLink := { delete := del, link := lnk, note := nt, report := urljoinBase rep }
      if v ≠ "" then .ok (some v, assocAppend versions v fl)
      else
        match topVersion with
        | some tv => .ok (some v, assocAppend versions tv fl)
        | none => .error "TypeError: unhashable type"
  | .other => .ok (cursor, versions)

def processDownloadsAux (topVersion : Option String) :
    Option String → List (String × List FileLink) → List DlBlock →
    Except String (List (String × List FileLink))
  | _, versions, [] => .ok versions
  | cursor, versions, b :: bs =>
    match processDl topVersion cursor versions b with
    | .error e => .error e
    | .ok (cursor2, versions2) => processDownloadsAux topVersion cursor2 versions2 bs

/-- The downloads loop over the children of the `downloads` element. -/
def processDownloads (topVersion : Option String) (blocks : List DlBlock) :
    Except String (List (String × List FileLink)) :=
  processDownloadsAux topVersion none [] blocks

/-- `parse_game_page` up to (but excluding) the final `PGame(...)` call:
builds the `data` accumulator, or `none` for the author-resolution
`return`, or an error for an uncaught exception. -/
def parseData (authorsTax : List (Int × String)) (pg : GamePageInput)
    (reviewBlocks : List String) : Except String (Option DataAcc) :=
  let init := initData pg.title
  match parseAuthors authorsTax pg with
  | none => .ok none
  | some auths =>
    match foldlE processBox { init with authors := auths } pg.infoBoxes with
    | .error e => .error e
    | .ok acc1 =>
      match processDownloads acc1.version pg.downloads with
      | .error e => .error e
      | .ok vers =>
        let secs := pg.tabs.foldl (fun s t => assocSet s (lowerStr t.1) (t.2.1, t.2.2))
          acc1.sections
        let acc3 := { acc1 with versions := vers, sections := secs, playOnline := pg.playOnline }
        match parseReviews reviewBlocks with
        | .error e => .error e
        | .ok revs => .ok (some { acc3 with reviews := revs })

/-- The pydantic model `PGame`. -/
structure PGame where
  id : Int
  title : String
  authors : List (String × Int)
  game_engine : String
  content_rating : String
  language : String
  release_date : DT
  last_update : DT
  version : String
  development_stage : String
  likes : Int
  reviews : List PReview
  contest : Option String
  orig_pc_gender : Option String
  themes : Option (List (String × Int) × List (String × Int) × List (String × Int))
  thread : Option String
  play_online : Option String
  versions : List (String × List FileLink)
  synopsis : Option (String × String)
  plot : Option (String × String)
  characters : Option (String × String)
  walkthrough : Option (String × String)
  changelog : Option (String × String)
deriving DecidableEq, Repr

/-- pydantic validation of a required field: a key the accumulator never
received makes `PGame(id=game_id, **data)` raise `ValidationError`. -/
def reqField (name : String) : Option α → Except String α
  | some v => .ok v
  | none => .error ("ValidationError: field required: " ++ name)

def secLookup (d : DataAcc) (k : String) : Option (String × String) :=
  (d.sections.find? (fun s => s.1 = k)).map (fun s => (s.2.1, s.2.2))

/-- `PGame(id=game_id, **data)`. -/
def buildPGame (gid : Int) (d : DataAcc) : Except String PGame :=
  match reqField "game_engine" d.gameEngine with
  | .error e => .error e
  | .ok ge =>
  match reqField "content_rating" d.contentRating with
  | .error e => .error e
  | .ok cr =>
  match reqField "language" d.language with
  | .error e => .error e
  | .ok lang =>
  match reqField "release_date" d.releaseDate with
  | .error e => .error e
  | .ok rd =>
  match reqField "last_update" d.lastUpdate with
  | .error e => .error e
  | .ok lu =>
  match reqField "version" d.version with
  | .error e => .error e
  | .ok ver =>
  match reqField "development_stage" d.developmentStage with
  | .error e => .error e
  | .ok dev =>
  .ok { id := gid, title := d.title, authors := d.authors, game_engine := ge,
         content_rating := cr, language := lang, release_date := rd, last_update := lu,
         version := ver, development_stage := dev, likes := d.likes, reviews := d.reviews,
         contest := d.contest, orig_pc_gender := d.origPcGender,
         themes := if d.themesPresent then some (d.adultThemes, d.tfThemes, d.mmThemes) else none,
         thread := d.thread, play_online := d.playOnline, versions := d.versions,
         synopsis := secLookup d "synopsis", plot := secLookup d "plot",
         characters := secLookup d "characters", walkthrough := secLookup d "walkthrough",
         changelog := secLookup d "changelog" }

/-- `parse_game_page(game_id, html_game, html_reviews)`: `.ok none` is the
author-resolution `return` (record discarded), `.error` an uncaught
exception. -/
def parse_game_page (authorsTax : List (Int × String)) (gid : Int) (pg : GamePageInput)
    (reviewBlocks : List String) : Except String (Option PGame) :=
  match parseData authorsTax pg reviewBlocks with
  | .error e => .error e
  | .ok none => .ok none
  | .ok (some d) => (buildPGame gid d).map some

/-! ## Database model (pony entities) and `pgame_to_db_game` -/

/-- A `Game` row with the attributes `pgame_to_db_game` writes. -/
structure GameRow where
  id : Int
  title : String
  engineId : Int
  ratingId : Int
  language : String
  release_date : DT
  last_update : DT
  version : String
  development_stage : String
  likes : Int
  contest : String
  orig_pc_gender : Option String
  adultThemeIds : List Int
  tfThemeIds : List Int
  mmThemeIds : List Int
  thread : String
  play_online : String
  synopsis_text : String
  synopsis_html : String
  plot_text : String
  plot_html : String
  characters_text : String
  characters_html : String
  walkthrough_text : String
  walkthrough_html : String
  changelog_text : String
  changelog_html : String
  authorIds : List Int
deriving DecidableEq, Repr

structure VersionRow where
  version : String
  gameId : Int
deriving DecidableEq, Repr

structure DownloadRow where
  link : String
  report : String
  note : String
  delete : String
  version : String
  gameId : Int
deriving DecidableEq, Repr

structure ReviewRow where
  author : String
  text : String
  date : DT
  version : String
  gameId : Int
deriving DecidableEq, Repr

/-- The persisted catalog: taxonomy tables as (id, name) rows, plus games,
versions, downloads and reviews (auto-increment surrogate keys of the
association rows are not modelled; rows carry their source-assigned
references). -/
structure DB where
  engines : List (Int × String)
  ratings : List (Int × String)
  adultThemesTab : List (Int × String)
  tfThemesTab : List (Int × String)
  mmThemesTab : List (Int × String)
  authors : List (Int × String)
  games : List GameRow
  gameVersions : List VersionRow
  gameDownloads : List DownloadRow
  reviewRows : List ReviewRow
deriving DecidableEq, Repr

def emptyDB : DB := ⟨[], [], [], [], [], [], [], [], [], []⟩

/-- pony `Entity.get(name=n)`: `none` for no row, the row for exactly one,
`MultipleObjectsFoundError` for several. -/
def getByName (tab : List (Int × String)) (n : String) : Except String (Option Int) :=
  match tab.filter (fun r => r.2 = n) with
  | [] => .ok none
  | [r] => .ok (some r.1)
  | _ => .error "MultipleObjectsFoundError"

/-- pony validation of a `Required` reference set to `None` (raised when
the `Game(...)` entity is constructed). -/
def reqEntity (name : String) : Option Int → Except String Int
  | some i => .ok i
  | none => .error ("ValueError: attribute is required: " ++ name)

/-- The author upsert loop: `GameAuthor.get(name=k, id=v)` matches both
attributes; a miss creates `GameAuthor(id=v, name=k)`, which collides with
an existing row of the same primary key (`CacheIndexError`). -/
def upsertAuthors (tab : List (Int × String)) (pairs : List (String × Int)) :
    Except String (List (Int × String)) :=
  foldlE (fun tab p =>
    if tab.contains (p.2, p.1) then .ok tab
    else if (tab.filter (fun r => r.1 = p.2)) ≠ [] then
      .error "CacheIndexError: primary key conflict"
    else .ok (tab ++ [(p.2, p.1)])) tab pairs

/-- `Theme.get(id=v)` per theme pair (no exception here; a missing id
yields `None` inside the list). -/
def themeGets (tab : List (Int × String)) (pairs : List (String × Int)) : List (Option Int) :=
  pairs.map (fun p => if (tab.filter (fun r => r.1 = p.2)) ≠ [] then some p.2 else none)

/-- `pgame_to_db_game(game)`: returns the existing row untouched when the
game id is already present; otherwise upserts authors, resolves engine,
rating and themes, and inserts the game with its versions, downloads and
reviews.  The pair is (database after the call, returned row). -/
def pgame_to_db_game (db : DB) (game : PGame) : Except String (DB × GameRow) :=
  match db.games.find? (fun r => r.id = game.id) with
  | some row => .ok (db, row)
  | none =>
    match upsertAuthors db.authors game.authors with
    | .error e => .error e
    | .ok authTab =>
    match getByName db.engines game.game_engine with
    | .error e => .error e
    | .ok engOpt =>
    match getByName db.ratings game.content_rating with
    | .error e => .error e
    | .ok ratOpt =>
    let aOpts := match game.themes with
      | none => ([], [], [])
      | some (a, t, m) =>
        (themeGets db.adultThemesTab a, themeGets db.tfThemesTab t, themeGets db.mmThemesTab m)
    match reqEntity "Game.engine" engOpt with
    | .error e => .error e
    | .ok eng =>
    match reqEntity "Game.content_rating" ratOpt with
    | .error e => .error e
    | .ok rat =>
    match mapME (reqEntity "AdultTheme") aOpts.1 with
    | .error e => .error e
    | .ok aIds =>
    match mapME (reqEntity "TransformationTheme") aOpts.2.1 with
    | .error e => .error e
    | .ok tIds =>
    match mapME (reqEntity "MultimediaTheme") aOpts.2.2 with
    | .error e => .error e
    | .ok mIds =>
    let row : GameRow :=
      { id := game.id, title := game.title,
        authorIds := game.authors.map (fun p => p.2),
        version := if game.version = "" then "1.0.0" else game.version,
        engineId := eng, ratingId := rat, language := game.language,
        release_date := game.release_date, last_update := game.last_update,
        development_stage := game.development_stage, likes := game.likes,
        contest := game.contest.getD "",
        orig_pc_gender := game.orig_pc_gender,
        adultThemeIds := aIds, tfThemeIds := tIds, mmThemeIds := mIds,
        thread := game.thread.getD "", play_online := game.play_online.getD "",
        synopsis_text := (game.synopsis.map (fun s => s.1)).getD "",
        synopsis_html := (game.synopsis.map (fun s => s.2)).getD "",
        plot_text := (game.plot.map (fun s => s.1)).getD "",
        plot_html := (game.plot.map (fun s => s.2)).getD "",
        characters_text := (game.characters.map (fun s => s.1)).getD "",
        characters_html := (game.characters.map (fun s => s.2)).getD "",
        walkthrough_text := (game.walkthrough.map (fun s => s.1)).getD "",
        walkthrough_html := (game.walkthrough.map (fun s => s.2)).getD "",
        changelog_text := (game.changelog.map (fun s => s.1)).getD "",
        changelog_html := (game.changelog.map (fun s => s.2)).getD "" }
    let db2 : DB :=
      { db with
        authors := authTab,
        games := db.games ++ [row],
        gameVersions := db.gameVersions ++ game.versions.map (fun p => ⟨p.1, game.id⟩),
        gameDownloads := db.gameDownloads ++
          (game.versions.map (fun p => p.2.map (fun dl =>
            (⟨dl.link, dl.report, dl.note.getD "", dl.delete.getD "", p.1, game.id⟩ :
              DownloadRow)))).flatten,
        reviewRows := db.reviewRows ++
          game.reviews.map (fun r => ⟨r.author, r.text, r.date, r.version, game.id⟩) }
    .ok (db2, row)

/-! ## The crawl cycle (`crawl_tfgs`) -/

/-- `int(url.split("id=")[1])` for a selected game URL (uncaught). -/
def extractGameId (url : String) : Except String Int :=
  match (pySplit url "id=").get? 1 with
  | none => .error "IndexError: list index out of range"
  | some t =>
    match pyInt t with
    | none => .error "ValueError: invalid literal for int"
    | some n => .ok n

/-- Lexicographic-by-code-point comparison of char lists: Python's string
ordering used by `sorted`. -/
def lexLe : List Char → List Char → Bool
  | [], _ => true
  | _ :: _, [] => false
  | c :: cs, d :: ds =>
    if c.toNat < d.toNat then true
    else if d.toNat < c.toNat then false
    else lexLe cs ds

/-- Python string `<=` (the order `sorted` sorts by). -/
def pyStrLe (a b : String) : Bool := lexLe a.data b.data

/-- `pyStrLe` as a relation. -/
def strLeP (a b : String) : Prop := pyStrLe a b = true

instance : DecidableRel strLeP :=
  fun a b => (inferInstance : Decidable (pyStrLe a b = true))

theorem lexLe_total (a : List Char) : ∀ b, lexLe a b = true ∨ lexLe b a = true := by
  induction a with
  | nil => intro b; left; rfl
  | cons x xs ih =>
    intro b
    cases b with
    | nil => right; rfl
    | cons y ys =>
      by_cases h1 : x.toNat < y.toNat
      · left
        unfold lexLe
        rw [if_pos h1]
      · by_cases h2 : y.toNat < x.toNat
        · right
          unfold lexLe
          rw [if_pos h2]
        · rcases ih ys with h | h
          · left
            unfold lexLe
            rw [if_neg h1, if_neg h2]
            exact h
          · right
            unfold lexLe
            rw [if_neg h2, if_neg h1]
            exact h

theorem lexLe_trans (a : List Char) : ∀ b c, lexLe a b = true → lexLe b c = true →
    lexLe a c = true := by
  induction a with
  | nil => intro b c _ _; rfl
  | cons x xs ih =>
    intro b c h1 h2
    cases b with
    | nil => exact Bool.noConfusion h1
    | cons y ys =>
      cases c with
      | nil => exact Bool.noConfusion h2
      | cons z zs =>
        unfold lexLe at h1 h2 ⊢
        by_cases hxy : x.toNat < y.toNat
        · by_cases hyz : y.toNat < z.toNat
          · rw [if_pos (by omega : x.toNat < z.toNat)]
          · rw [if_neg hyz] at h2
            by_cases hzy : z.toNat < y.toNat
            · rw [if_pos hzy] at h2
              exact Bool.noConfusion h2
            · rw [if_pos (by omega : x.toNat < z.toNat)]
        · rw [if_neg hxy] at h1
          by_cases hyx : y.toNat < x.toNat
          · rw [if_pos hyx] at h1
            exact Bool.noConfusion h1
          · rw [if_neg hyx] at h1
            by_cases hyz : y.toNat < z.toNat
            · rw [if_pos (by omega : x.toNat < z.toNat)]
            · rw [if_neg hyz] at h2
              by_cases hzy : z.toNat < y.toNat
              · rw [if_pos hzy] at h2
                exact Bool.noConfusion h2
              · rw [if_neg hzy] at h2
                rw [if_neg (by omega : ¬ x.toNat < z.toNat),
                   if_neg (by omega : ¬ z.toNat < x.toNat)]
                exact ih ys zs h1 h2

instance : IsTotal String strLeP :=
  ⟨fun a b => lexLe_total a.data b.data⟩

instance : IsTrans String strLeP :=
  ⟨fun a b c => lexLe_trans a.data b.data c.data⟩

/-- The absolute game URLs: `urljoin(config.BASE_URL, "/" + href)` per
table row. -/
def joinedLinks (gameLinks : List String) : List String :=
  gameLinks.map (fun h => "https://tfgames.site/" ++ h)

/-- `sorted(game_links)` (ascending lexicographic, as Python sorts
strings). -/
def sortedLinks (gameLinks : List String) : List String :=
  List.insertionSort strLeP (joinedLinks gameLinks)

/-- `sorted(game_links)[:100]`. -/
def selectedUrls (gameLinks : List String) : List String :=
  (sortedLinks gameLinks).take 100

/-- First-occurrence deduplication (the `result[game_id][typ]` dict keys). -/
def dedupFirstAux (seen : List Int) : List Int → List Int
  | [] => []
  | x :: xs =>
    if x ∈ seen then dedupFirstAux seen xs
    else x :: dedupFirstAux (x :: seen) xs

/-- The inputs one cycle consumes from the network: the parsed taxonomy
listings per kind, the game-index response status, the table hrefs of the
game index, and the two pages fetched per selected game id. -/
structure CrawlInput where
  engines : List (Int × String)
  ratings : List (Int × String)
  adultCat : List (Int × String)
  tfCat : List (Int × String)
  mmCat : List (Int × String)
  authorsCat : List (Int × String)
  indexStatus : Nat
  gameLinks : List String
  detailFor : Int → GamePageInput
  reviewsFor : Int → List String

/-- The session state after the taxonomy inserts of `fetch_all_categories`. -/
def taxDB (inp : CrawlInput) : DB :=
  { emptyDB with
    engines := inp.engines, ratings := inp.ratings, adultThemesTab := inp.adultCat,
    tfThemesTab := inp.tfCat, mmThemesTab := inp.mmCat, authors := inp.authorsCat }

/-- The write loop: `if not game: continue` skips discarded records, and a
write failure is re-raised, aborting the cycle. -/
def writeGames (parsed : List (Option PGame)) (db : DB) : Except String DB :=
  foldlE (fun db og =>
    match og with
    | none => .ok db
    | some g => (pgame_to_db_game db g).map (fun p => p.1)) db parsed

def selectedGameIds (inp : CrawlInput) : Except String (List Int) :=
  mapME extractGameId (selectedUrls inp.gameLinks)

/-- `crawl_tfgs()` after the initial `db.drop_all_tables(with_all_data=True);
db.create_tables()`: a non-200 index response raises before any game write;
otherwise the selected games are parsed and written inside the single
`db_session`.  The returned `DB` is the state the session commit publishes;
an error means the session rolled back, leaving the dropped (empty) tables. -/
def crawl (inp : CrawlInput) : Except String DB :=
  if inp.indexStatus ≠ 200 then .error "Not status code 200"
  else
    match selectedGameIds inp with
    | .error e => .error e
    | .ok ids =>
      match mapME
        (fun gid => parse_game_page inp.authorsCat gid (inp.detailFor gid) (inp.reviewsFor gid))
        (dedupFirstAux [] ids) with
      | .error e => .error e
      | .ok parsed => writeGames parsed (taxDB inp)

/-- The games-table states a concurrent reader can observe during one
cycle, in order: the prior snapshot; the empty table committed by the
drop/create at cycle start; and, when the cycle succeeds, the snapshot the
session commit publishes.  On failure the session rolls back and the empty
state is what remains. -/
def crawlGamesTrace (prior : DB) (inp : CrawlInput) : List (List GameRow) :=
  match crawl inp with
  | .ok db => [prior.games, [], db.games]
  | .error _ => [prior.games, []]

/-- Whether one selected game id parses to an accepted record. -/
def isAccepted (inp : CrawlInput) (gid : Int) : Bool :=
  match parse_game_page inp.authorsCat gid (inp.detailFor gid) (inp.reviewsFor gid) with
  | .ok (some _) => true
  | _ => false

/-- The ids of the records accepted in a cycle: selected, deduplicated ids
whose pages parse to a record. -/
def acceptedIds (inp : CrawlInput) : List Int :=
  match selectedGameIds inp with
  | .error _ => []
  | .ok ids => (dedupFirstAux [] ids).filter (isAccepted inp)

/-! ## Concrete fixtures (used by witnesses and counterexamples) -/

/-- A detail page every field of which extracts cleanly. -/
def pageOk : GamePageInput :=
  { title := " T ",
    bylineLinks := [{ text := "Ann", href := "https://tfgames.site/profile.php?u=7" }],
    bylineText := "by Ann",
    infoBoxes :=
      [{ left := "Engine", rightText := "RAGS", rightLinks := [] },
       { left := "Rating", rightText := "Adult", rightLinks := [] },
       { left := "Language", rightText := "English", rightLinks := [] },
       { left := "Release Date", rightText := "01/02/2020", rightLinks := [] },
       { left := "Last Update", rightText := "01/03/2020", rightLinks := [] },
       { left := "Version", rightText := "1.0", rightLinks := [] },
       { left := "Development", rightText := "Complete", rightLinks := [] },
       { left := "Likes", rightText := "5", rightLinks := [] }],
    downloads := [], tabs := [], playOnline := none }

/-- `pageOk` with a given replacement text for one attribute label. -/
def pageWithRight (label text : String) : GamePageInput :=
  { pageOk with
    infoBoxes := pageOk.infoBoxes.map (fun b =>
      if b.left = label then { b with rightText := text } else b) }

/-- `pageOk` without a given attribute box. -/
def pageWithoutBox (label : String) : GamePageInput :=
  { pageOk with infoBoxes := pageOk.infoBoxes.filter (fun b => b.left ≠ label) }

/-- A page whose byline has no hyperlinks and whose slug matches no Author
row (the unresolvable-author case). -/
def pageGhost : GamePageInput :=
  { pageOk with bylineLinks := [], bylineText := " by Ghost " }

/-- A one-game crawl input whose only game is `pageOk` under id 1. -/
def inpOk : CrawlInput :=
  { engines := [(1, "rags")], ratings := [(2, "adult")], adultCat := [], tfCat := [],
    mmCat := [], authorsCat := [], indexStatus := 200,
    gameLinks := ["index.php?module=viewgame&id=1"],
    detailFor := fun _ => pageOk, reviewsFor := fun _ => [] }

/-- A two-game crawl input: id 1 parses (`pageOk`), id 2 has an
unresolvable author (`pageGhost`). -/
def inpTwo : CrawlInput :=
  { inpOk with
    gameLinks := ["index.php?module=viewgame&id=1", "index.php?module=viewgame&id=2"],
    detailFor := fun gid => if gid = 2 then pageGhost else pageOk }

/-- The game row the successful crawl of `pageOk` writes. -/
def rowOk : GameRow :=
  { id := 1, title := "T", engineId := 1, ratingId := 2, language := "English",
    release_date := ⟨2020, 1, 2, 0, 0, 0⟩, last_update := ⟨2020, 1, 3, 0, 0, 0⟩,
    version := "1.0", development_stage := "Complete", likes := 5, contest := "",
    orig_pc_gender := none, adultThemeIds := [], tfThemeIds := [], mmThemeIds := [],
    thread := "", play_online := "", synopsis_text := "", synopsis_html := "",
    plot_text := "", plot_html := "", characters_text := "", characters_html := "",
    walkthrough_text := "", walkthrough_html := "", changelog_text := "",
    changelog_html := "", authorIds := [7] }

/-- The catalog state the successful cycles of `inpOk` / `inpTwo` commit. -/
def dbOutOk : DB :=
  { engines := [(1, "rags")], ratings := [(2, "adult")], adultThemesTab := [],
    tfThemesTab := [], mmThemesTab := [], authors := [(7, "ann")], games := [rowOk],
    gameVersions := [], gameDownloads := [], reviewRows := [] }

/-- A row standing for a record of the prior cycle. -/
def oldRow : GameRow :=
  { rowOk with id := 99, title := "Old" }

/-- A non-empty prior catalog. -/
def priorDB : DB := { emptyDB with games := [oldRow] }

/-- The review block of the spec's own example. -/
def janeBlock : String :=
  "Review by Jane\nVersion reviewed: 1.2 on 2019-06-01 10:00:00\nGreat game"

def janeReview : PReview :=
  { id := 0, author := "Jane", version := "1.2",
    date := ⟨2019, 6, 1, 10, 0, 0⟩, text := "Great game" }

/-- A newer, well-formed block (its date uses the second review format). -/
def bobBlock : String :=
  "Review by Bob\nVersion reviewed: 2.0 on 06/02/2019 11:00:00\nNice"

def bobReview : PReview :=
  { id := 1, author := "Bob", version := "2.0",
    date := ⟨2019, 6, 2, 11, 0, 0⟩, text := "Nice" }

/-- A block whose first line lacks the review marker. -/
def noHeaderBlock : String :=
  "some text\nVersion reviewed: 1.0 on 2019-06-01 10:00:00\nbody"

/-- A block whose second line is not a version line. -/
def badVersionBlock : String := "Review by Eve\nwrong line\nbody"

/-- A block whose date string fails both review date formats. -/
def badDateBlock : String := "Review by Bob\nVersion reviewed: 2.0 on never ever\nBad"

/-! ## Claim theorems -/

/-- C6: the reviews loop iterates over the reversed (newest-first →
oldest-first) block list, assigning 0-based sequence ids after the
reversal; the spec's example block yields exactly the stated review, and a
block missing `Review by` on its first line yields no review. -/
theorem c6_review_order :
    parseReviews [janeBlock] = .ok [janeReview] ∧
    parseReviews [noHeaderBlock] = .ok [] ∧
    (∀ b1 b2 r1 r2, processBlock 0 b2 = .ok (some r2) → processBlock 1 b1 = .ok (some r1) →
      parseReviews [b1, b2] = .ok [r2, r1]) := by
  refine ⟨by decide, by decide, ?_⟩
  intro b1 b2 r1 r2 h2 h1
  simp [parseReviews, parseReviewsAux, h1, h2]

/-- C6 witness: a two-block page (newest first) comes out chronological
with ids 0 and 1 assigned after reversal. -/
theorem c6_review_order_witness :
    parseReviews [bobBlock, janeBlock] = .ok [janeReview, bobReview] :=
  c6_review_order.2.2 bobBlock janeBlock bobReview janeReview (by decide) (by decide)

/-- C5 counterexample: a page whose newer block has a date failing both
formats aborts the whole reviews parse — the older well-formed block
(which parses fine on its own) is never produced, refuting "a malformed
individual review block is discarded on its own and never aborts parsing
of the remaining review blocks". -/
theorem c5_counterexample :
    parseReviews [janeBlock] = .ok [janeReview] ∧
    parseReviews [janeBlock, badDateBlock] =
      .error "ParserError: could not match format" := by
  exact ⟨by decide, by decide⟩

/-- C5 amended: blocks with no non-blank lines raise; blocks missing the
`Review by` marker or the version line are discarded individually without
aborting; but a block whose date fails both known formats raises (the
second `arrow.get` is outside the `try`), and any raising block aborts the
parse of the whole page. -/
theorem c5_malformed_blocks :
    (∀ i b, pyLines b = [] → processBlock i b = .error "IndexError: list index out of range") ∧
    (∀ i b l0 rest, pyLines b = l0 :: rest → containsSub l0 "Review by" = false →
       processBlock i b = .ok none) ∧
    (∀ i b l0 l1 rest, pyLines b = l0 :: l1 :: rest → containsSub l0 "Review by" = true →
       isPrefixL "Version reviewed: ".data l1.data = false → processBlock i b = .ok none) ∧
    (∀ i b l0 l1 rest v dstr, pyLines b = l0 :: l1 :: rest →
       containsSub l0 "Review by" = true →
       isPrefixL "Version reviewed: ".data l1.data = true →
       greedySplitOn " on ".data (l1.data.drop "Version reviewed: ".length) = some (v, dstr) →
       arrowGet fmtYMDHMS (String.mk dstr) = none →
       arrowGet fmtMDYHMS (String.mk dstr) = none →
       processBlock i b = .error "ParserError: could not match format") ∧
    (∀ front b e, processBlock 0 b = .error e →
       parseReviews (front ++ [b]) = .error e) := by
  refine ⟨?_, ?_, ?_, ?_, ?_⟩
  · intro i b hl
    unfold processBlock
    rw [hl]
  · intro i b l0 rest hl hc
    unfold processBlock
    rw [hl]
    simp [hc]
  · intro i b l0 l1 rest hl hc hv
    unfold processBlock
    rw [hl]
    simp [hc, hv]
  · intro i b l0 l1 rest v dstr hl hc hv hg h1 h2
    unfold processBlock
    rw [hl]
    simp [hc, hv, hg, h1, h2]
  · intro front b e hb
    unfold parseReviews
    rw [List.reverse_append]
    simp only [List.reverse_cons, List.reverse_nil, List.nil_append, List.singleton_append]
    unfold parseReviewsAux
    rw [hb]

/-- C5 witness: each malformed shape behaves as the amended claim states,
on concrete blocks. -/
theorem c5_malformed_blocks_witness :
    processBlock 3 "" = .error "IndexError: list index out of range" ∧
    processBlock 0 noHeaderBlock = .ok none ∧
    processBlock 0 badVersionBlock = .ok none ∧
    processBlock 0 badDateBlock = .error "ParserError: could not match format" ∧
    parseReviews [janeBlock, badDateBlock] = .error "ParserError: could not match format" := by
  refine ⟨?_, ?_, ?_, ?_, ?_⟩
  · exact c5_malformed_blocks.1 3 "" (by decide)
  · exact c5_malformed_blocks.2.1 0 noHeaderBlock "some text"
      ["Version reviewed: 1.0 on 2019-06-01 10:00:00", "body"] (by decide) (by decide)
  · exact c5_malformed_blocks.2.2.1 0 badVersionBlock "Review by Eve" "wrong line" ["body"]
      (by decide) (by decide) (by decide)
  · exact c5_malformed_blocks.2.2.2.1 0 badDateBlock "Review by Bob"
      "Version reviewed: 2.0 on never ever" ["Bad"] "2.0".data "never ever".data
      (by decide) (by decide) (by decide) (by decide) (by decide) (by decide)
  · exact c5_malformed_blocks.2.2.2.2 [janeBlock] badDateBlock
      "ParserError: could not match format" (by decide)

/-- A page whose downloads section has a file block before any version
header. -/
def pageFileNoHeader : GamePageInput :=
  { pageOk with downloads := [DlBlock.file none "l" none "/r"] }

/-- C8 counterexample: a file block before any version header does not
attach to the record's top-level version — the local `version` cursor is
still unbound, so the record (and with it the cycle) aborts with
`UnboundLocalError`, even though the page carries a top-level version. -/
theorem c8_counterexample :
    parse_game_page [] 1 pageFileNoHeader [] =
      .error "UnboundLocalError: local variable referenced before assignment" ∧
    processDownloads (some "1.0") [DlBlock.file none "l" none "/r"] =
      .error "UnboundLocalError: local variable referenced before assignment" := by
  exact ⟨by decide, by decide⟩

/-- C8 amended: a version header updates the cursor applied to all
subsequent file blocks; a file block under a header whose cleaned text is
*empty* falls back to the record's top-level version; but a file block
before any header finds the cursor unbound and raises, aborting the
record. -/
theorem c8_version_cursor :
    (∀ top cur vers t, processDl top cur vers (DlBlock.header t) =
       .ok (some (cleanVersionHeader t), vers)) ∧
    (∀ top vers v del lnk nt rep, v ≠ "" →
       processDl top (some v) vers (DlBlock.file del lnk nt rep) =
       .ok (some v, assocAppend vers v ⟨del, lnk, nt, urljoinBase rep⟩)) ∧
    (∀ tv vers del lnk nt rep,
       processDl (some tv) (some "") vers (DlBlock.file del lnk nt rep) =
       .ok (some "", assocAppend vers tv ⟨del, lnk, nt, urljoinBase rep⟩)) ∧
    (∀ top vers del lnk nt rep,
       processDl top none vers (DlBlock.file del lnk nt rep) =
       .error "UnboundLocalError: local variable referenced before assignment") ∧
    (∀ top t rest, processDownloads top (DlBlock.header t :: rest) =
       processDownloadsAux top (some (cleanVersionHeader t)) [] rest) := by
  refine ⟨?_, ?_, ?_, ?_, ?_⟩
  · intro top cur vers t
    rfl
  · intro top vers v del lnk nt rep hv
    simp [processDl, hv]
  · intro tv vers del lnk nt rep
    rfl
  · intro top vers del lnk nt rep
    rfl
  · intro top t rest
    rfl

/-- C8 witness: the cursor set by a header is applied to a later file
block. -/
theorem c8_version_cursor_witness :
    processDl (some "1.0") (some "2.0") [] (DlBlock.file none "l" none "/r") =
      .ok (some "2.0", [("2.0", [⟨none, "l", none, "https://tfgames.site/r"⟩])]) := by
  have h := c8_version_cursor.2.1 (some "1.0") [] "2.0" none "l" none "/r" (by decide)
  exact h.trans (by decide)

/-- `pageOk` with an unparsable Likes value. -/
def pageBadLikes : GamePageInput := pageWithRight "Likes" "12 likes"

/-- `pageOk` without a Likes box. -/
def pageNoLikes : GamePageInput := pageWithoutBox "Likes"

/-- C9 counterexample: a present-but-unparsable Likes value does not
default to 0 — `int()` raises and the whole record aborts (no other field
of the record is produced), while the same page without the box yields a
record with likes 0. -/
theorem c9_counterexample :
    parse_game_page [] 1 pageBadLikes [] = .error "ValueError: invalid literal for int" ∧
    (match parse_game_page [] 1 pageNoLikes [] with
     | .ok (some g) => some g.likes
     | _ => none) = some 0 := by
  exact ⟨by decide, by decide⟩

set_option maxHeartbeats 1000000 in
/-- A box result preserving lemma: any non-Likes box, when it succeeds,
leaves `data["likes"]` unchanged. -/
theorem processBox_preserves_likes (acc acc2 : DataAcc) (box : InfoBox)
    (hne : box.left ≠ "Likes") (h : processBox acc box = .ok acc2) :
    acc2.likes = acc.likes := by
  unfold processBox at h
  by_cases h1 : box.left = "Engine"
  · rw [if_pos h1] at h; cases h; rfl
  rw [if_neg h1] at h
  by_cases h2 : box.left = "Rating"
  · rw [if_pos h2] at h; cases h; rfl
  rw [if_neg h2] at h
  by_cases h3 : box.left = "Language"
  · rw [if_pos h3] at h; cases h; rfl
  rw [if_neg h3] at h
  by_cases h4 : box.left = "Release Date"
  · rw [if_pos h4] at h; cases h; rfl
  rw [if_neg h4] at h
  by_cases h5 : box.left = "Last Update"
  · rw [if_pos h5] at h; cases h; rfl
  rw [if_neg h5] at h
  by_cases h6 : box.left = "Version"
  · rw [if_pos h6] at h; cases h; rfl
  rw [if_neg h6] at h
  by_cases h7 : box.left = "Development"
  · rw [if_pos h7] at h; cases h; rfl
  rw [if_neg h7] at h
  rw [if_neg hne] at h
  by_cases h9 : box.left = "Contest"
  · rw [if_pos h9] at h; cases h; rfl
  rw [if_neg h9] at h
  by_cases h10 : box.left = "Orig PC Gender"
  · rw [if_pos h10] at h; cases h; rfl
  rw [if_neg h10] at h
  by_cases h11 : box.left = "Adult Themes"
  · rw [if_pos h11] at h
    cases htp : themePairs "adult" box.rightLinks with
    | error e => rw [htp] at h; exact Except.noConfusion h
    | ok pairs => rw [htp] at h; cases h; rfl
  rw [if_neg h11] at h
  by_cases h12 : box.left = "TF Themes"
  · rw [if_pos h12] at h
    cases htp : themePairs "transformation" box.rightLinks with
    | error e => rw [htp] at h; exact Except.noConfusion h
    | ok pairs => rw [htp] at h; cases h; rfl
  rw [if_neg h12] at h
  by_cases h13 : box.left = "Multimedia"
  · rw [if_pos h13] at h
    cases htp : themePairs "multimedia" box.rightLinks with
    | error e => rw [htp] at h; exact Except.noConfusion h
    | ok pairs => rw [htp] at h; cases h; rfl
  rw [if_neg h13] at h
  by_cases h14 : box.left = "Discussion/Help"
  · rw [if_pos h14] at h
    cases hrl : box.rightLinks with
    | nil => rw [hrl] at h; exact Except.noConfusion h
    | cons l ls => rw [hrl] at h; cases h; rfl
  rw [if_neg h14] at h
  cases h; rfl

/-- The Likes branch of the attribute-table dispatch. -/
theorem processBox_likes_eq (acc : DataAcc) (box : InfoBox) (hl : box.left = "Likes") :
    processBox acc box =
      (match pyInt box.rightText with
       | some n => .ok { acc with likes := n }
       | none => .error "ValueError: invalid literal for int") := by
  unfold processBox
  rw [if_neg (show box.left ≠ "Engine" by rw [hl]; decide),
      if_neg (show box.left ≠ "Rating" by rw [hl]; decide),
      if_neg (show box.left ≠ "Language" by rw [hl]; decide),
      if_neg (show box.left ≠ "Release Date" by rw [hl]; decide),
      if_neg (show box.left ≠ "Last Update" by rw [hl]; decide),
      if_neg (show box.left ≠ "Version" by rw [hl]; decide),
      if_neg (show box.left ≠ "Development" by rw [hl]; decide),
      if_pos hl]

/-- C9 amended: `data["likes"]` is initialized to 0 and stays 0 when no
Likes box is present; a parsable Likes value is stored as an integer; but
a present, unparsable value raises `ValueError` (the `int()` call has no
`try`), aborting the record instead of defaulting. -/
theorem c9_likes :
    (∀ acc box n, box.left = "Likes" → pyInt box.rightText = some n →
       processBox acc box = .ok { acc with likes := n }) ∧
    (∀ acc box, box.left = "Likes" → pyInt box.rightText = none →
       processBox acc box = .error "ValueError: invalid literal for int") ∧
    (∀ t, (initData t).likes = 0) ∧
    (∀ boxes acc acc2, (∀ b ∈ boxes, b.left ≠ "Likes") →
       foldlE processBox acc boxes = .ok acc2 → acc2.likes = acc.likes) := by
  refine ⟨?_, ?_, fun _ => rfl, ?_⟩
  · intro acc box n hl hp
    rw [processBox_likes_eq acc box hl, hp]
  · intro acc box hl hp
    rw [processBox_likes_eq acc box hl, hp]
  · intro boxes
    induction boxes with
    | nil =>
      intro acc acc2 _ h
      cases h
      rfl
    | cons b bs ih =>
      intro acc acc2 hne h
      unfold foldlE at h
      cases hb : processBox acc b with
      | error e =>
        rw [hb] at h
        exact Except.noConfusion h
      | ok acc1 =>
        rw [hb] at h
        have h1 := processBox_preserves_likes acc acc1 b (hne b (by simp)) hb
        have h2 := ih acc1 acc2 (fun x hx => hne x (by simp [hx])) h
        rw [h2, h1]

/-- C9 witness: a parsable Likes value on concrete data, and the
absent-box default on the concrete page. -/
theorem c9_likes_witness :
    processBox (initData "x") { left := "Likes", rightText := "5", rightLinks := [] } =
      .ok { initData "x" with likes := 5 } ∧
    (initData "x").likes = 0 ∧
    processBox (initData "x") { left := "Likes", rightText := "12 likes", rightLinks := [] } =
      .error "ValueError: invalid literal for int" := by
  refine ⟨?_, c9_likes.2.2.1 "x", ?_⟩
  · exact c9_likes.1 (initData "x") { left := "Likes", rightText := "5", rightLinks := [] } 5
      (by decide) (by decide)
  · exact c9_likes.2.1 (initData "x") { left := "Likes", rightText := "12 likes", rightLinks := [] }
      (by decide) (by decide)

/-- A `data` accumulator with the three fields preceding `release_date`
set and `release_date` never assigned. -/
def accNoDate : DataAcc :=
  { (initData "x") with
    gameEngine := some "e"
    contentRating := some "r"
    language := some "l" }

/-- A string matched by *both* release-date formats (the pipe-delimited
one at its head, `MM/DD/YYYY` later in the string, both on arrow's word
boundaries). -/
def bothFormatsStr : String := "|14 Jun 2019|, 20:15 01/02/2020"

/-- C3 counterexample: on a string both formats match, the *second*
format's value (`MM/DD/YYYY`, here 2020-01-02) overwrites the first —
"first success wins" is false; the first tried format requires literal
pipe delimiters, so the spec's "optional-weekday, DD Mon YYYY, HH:mm"
reading ("Fri, 14 Jun 2019, 20:15") does not match it; and a date string
failing every format does not leave a viable record — the required
`release_date` field is missing, so building the record raises, aborting
it. -/
theorem c3_counterexample :
    arrowGet fmtPipeDMY bothFormatsStr = some ⟨2019, 6, 14, 20, 15, 0⟩ ∧
    arrowGet fmtMDY bothFormatsStr = some ⟨2020, 1, 2, 0, 0, 0⟩ ∧
    dateFieldUpdate none bothFormatsStr = some ⟨2020, 1, 2, 0, 0, 0⟩ ∧
    arrowGet fmtPipeDMY "Fri, 14 Jun 2019, 20:15" = none ∧
    parse_game_page [] 1 (pageWithRight "Release Date" "garbage") [] =
      .error "ValidationError: field required: release_date" := by
  exact ⟨by decide, by decide, by decide, by decide, by decide⟩

/-- C3 amended: both formats are attempted in the order pipe-format then
`MM/DD/YYYY`, each success assigning the field, so when both succeed the
second (`MM/DD/YYYY`) wins; when only the pipe-format succeeds its value
is kept; when both fail the field is left as it was (unset if never
assigned) without raising — but a record whose `release_date` was never
assigned then fails the required-field validation of `PGame(...)`,
aborting the record. -/
theorem c3_date_chain (s : String) (old : Option DT) :
    (∀ d, arrowGet fmtMDY s = some d → dateFieldUpdate old s = some d) ∧
    (arrowGet fmtMDY s = none → ∀ d, arrowGet fmtPipeDMY s = some d →
       dateFieldUpdate old s = some d) ∧
    (arrowGet fmtMDY s = none → arrowGet fmtPipeDMY s = none →
       dateFieldUpdate old s = old) ∧
    (∀ gid d ge cr lang, d.gameEngine = some ge → d.contentRating = some cr →
       d.language = some lang → d.releaseDate = none →
       buildPGame gid d = .error "ValidationError: field required: release_date") := by
  refine ⟨?_, ?_, ?_, ?_⟩
  · intro d hd
    unfold dateFieldUpdate
    rw [hd]
  · intro hn d hd
    unfold dateFieldUpdate
    rw [hn, hd]
  · intro hn hp
    unfold dateFieldUpdate
    rw [hn, hp]
  · intro gid d ge cr lang hge hcr hlang hrd
    unfold buildPGame
    rw [hge, hcr, hlang, hrd]
    rfl

/-- C3 witness: the three chain behaviours and the validation abort on
concrete inputs. -/
theorem c3_date_chain_witness :
    dateFieldUpdate none "06/14/2019" = some ⟨2019, 6, 14, 0, 0, 0⟩ ∧
    dateFieldUpdate none "|14 Jun 2019|, 20:15" = some ⟨2019, 6, 14, 20, 15, 0⟩ ∧
    dateFieldUpdate (some ⟨2001, 1, 1, 0, 0, 0⟩) "garbage" = some ⟨2001, 1, 1, 0, 0, 0⟩ ∧
    buildPGame 1 accNoDate =
      .error "ValidationError: field required: release_date" := by
  refine ⟨?_, ?_, ?_, ?_⟩
  · exact (c3_date_chain "06/14/2019" none).1 ⟨2019, 6, 14, 0, 0, 0⟩ (by decide)
  · exact (c3_date_chain "|14 Jun 2019|, 20:15" none).2.1 (by decide)
      ⟨2019, 6, 14, 20, 15, 0⟩ (by decide)
  · exact (c3_date_chain "garbage" (some ⟨2001, 1, 1, 0, 0, 0⟩)).2.2.1 (by decide) (by decide)
  · exact (c3_date_chain "" none).2.2.2 1 accNoDate "e" "r" "l" (by rfl) (by rfl) (by rfl) (by rfl)

/-- C7: with at least 100 discovered links, exactly 100 games proceed to
the fetch stage, namely those whose URLs sort lowest: the selection has
length 100, together with the dropped suffix it is a permutation of all
joined URLs, and every selected URL sorts at or below every dropped one. -/
theorem c7_listing_cap (links : List String) (h : 100 ≤ links.length) :
    (selectedUrls links).length = 100 ∧
    List.Perm (selectedUrls links ++ (sortedLinks links).drop 100) (joinedLinks links) ∧
    (∀ x ∈ selectedUrls links, ∀ y ∈ (sortedLinks links).drop 100, strLeP x y) := by
  have hlen : (sortedLinks links).length = links.length := by
    unfold sortedLinks
    rw [(List.perm_insertionSort _ _).length_eq]
    simp [joinedLinks]
  refine ⟨by simp [selectedUrls, hlen, h], ?_, ?_⟩
  · have hsplit : selectedUrls links ++ (sortedLinks links).drop 100 = sortedLinks links :=
      List.take_append_drop _ _
    rw [hsplit]
    exact List.perm_insertionSort _ _
  · have hs : List.Sorted strLeP (sortedLinks links) :=
      List.sorted_insertionSort _ _
    rw [← List.take_append_drop 100 (sortedLinks links)] at hs
    exact (List.pairwise_append.mp hs).2.2

/-- 150 distinct two-letter links, ascending. -/
def mkLink (n : Nat) : String :=
  String.mk [Char.ofNat (65 + n / 26), Char.ofNat (65 + n % 26)]

def links150 : List String := (List.range 150).map mkLink

/-- C7 witness: the spec's own instance — 150 discovered links, cap 100. -/
theorem c7_listing_cap_witness :
    100 ≤ links150.length ∧
    ((selectedUrls links150).length = 100 ∧
     List.Perm (selectedUrls links150 ++ (sortedLinks links150).drop 100)
       (joinedLinks links150) ∧
     (∀ x ∈ selectedUrls links150, ∀ y ∈ (sortedLinks links150).drop 100, strLeP x y)) :=
  ⟨by simp [links150], c7_listing_cap links150 (by simp [links150])⟩

theorem find?_append_none (p : α → Bool) (l1 l2 : List α) (h : l1.find? p = none) :
    (l1 ++ l2).find? p = l2.find? p := by
  induction l1 with
  | nil => rfl
  | cons a as ih =>
    rw [List.cons_append]
    cases hpa : p a
    · rw [List.find?_cons_of_neg _ (by simp [hpa])]
      rw [List.find?_cons_of_neg _ (by simp [hpa])] at h
      exact ih h
    · rw [List.find?_cons_of_pos _ hpa] at h
      exact Option.noConfusion h

set_option maxHeartbeats 1000000 in
/-- The insert path of `pgame_to_db_game`: when the id is new and the call
succeeds, the returned database appends exactly one game row carrying the
record's id. -/
theorem pgame_to_db_game_insert (db : DB) (g : PGame) (out : DB × GameRow)
    (hf : db.games.find? (fun r => r.id = g.id) = none)
    (h : pgame_to_db_game db g = .ok out) :
    out.1.games = db.games ++ [out.2] ∧ out.2.id = g.id := by
  unfold pgame_to_db_game at h
  simp only [hf] at h
  cases h1 : upsertAuthors db.authors g.authors with
  | error e => simp only [h1] at h; exact Except.noConfusion h
  | ok authTab =>
  simp only [h1] at h
  cases h2 : getByName db.engines g.game_engine with
  | error e => simp only [h2] at h; exact Except.noConfusion h
  | ok engOpt =>
  simp only [h2] at h
  cases h3 : getByName db.ratings g.content_rating with
  | error e => simp only [h3] at h; exact Except.noConfusion h
  | ok ratOpt =>
  simp only [h3] at h
  cases h4 : reqEntity "Game.engine" engOpt with
  | error e => simp only [h4] at h; exact Except.noConfusion h
  | ok eng =>
  simp only [h4] at h
  cases h5 : reqEntity "Game.content_rating" ratOpt with
  | error e => simp only [h5] at h; exact Except.noConfusion h
  | ok rat =>
  simp only [h5] at h
  cases h6 : mapME (reqEntity "AdultTheme")
      (match g.themes with
       | none => ([], [], [])
       | some (a, t, m) =>
         (themeGets db.adultThemesTab a, themeGets db.tfThemesTab t,
          themeGets db.mmThemesTab m)).1 with
  | error e => simp only [h6] at h; exact Except.noConfusion h
  | ok aIds =>
  simp only [h6] at h
  cases h7 : mapME (reqEntity "TransformationTheme")
      (match g.themes with
       | none => ([], [], [])
       | some (a, t, m) =>
         (themeGets db.adultThemesTab a, themeGets db.tfThemesTab t,
          themeGets db.mmThemesTab m)).2.1 with
  | error e => simp only [h7] at h; exact Except.noConfusion h
  | ok tIds =>
  simp only [h7] at h
  cases h8 : mapME (reqEntity "MultimediaTheme")
      (match g.themes with
       | none => ([], [], [])
       | some (a, t, m) =>
         (themeGets db.adultThemesTab a, themeGets db.tfThemesTab t,
          themeGets db.mmThemesTab m)).2.2 with
  | error e => simp only [h8] at h; exact Except.noConfusion h
  | ok mIds =>
  simp only [h8] at h
  injection h with h9
  rw [← h9]
  exact ⟨rfl, rfl⟩

/-- C10: a record whose id already exists as a `Game` row makes
`pgame_to_db_game` return that row with the database untouched — no game,
author, version, download or review row is inserted or modified; and a
second call with the same record on the resulting database is a no-op, so
the first write for a game id wins. -/
theorem c10_duplicate_id :
    (∀ db g row, db.games.find? (fun r => r.id = g.id) = some row →
       pgame_to_db_game db g = .ok (db, row)) ∧
    (∀ db g out, pgame_to_db_game db g = .ok out →
       pgame_to_db_game out.1 g = .ok out) := by
  have hfirst : ∀ (db : DB) (g : PGame) row,
      db.games.find? (fun r => r.id = g.id) = some row →
      pgame_to_db_game db g = .ok (db, row) := by
    intro db g row hf
    unfold pgame_to_db_game
    simp only [hf]
  refine ⟨hfirst, ?_⟩
  intro db g out h
  cases hf : db.games.find? (fun r => r.id = g.id) with
  | some row =>
    rw [hfirst db g row hf] at h
    injection h with h2
    rw [← h2]
    exact hfirst db g row hf
  | none =>
    obtain ⟨hgames, hid⟩ := pgame_to_db_game_insert db g out hf h
    have hfind : out.1.games.find? (fun r => r.id = g.id) = some out.2 := by
      rw [hgames, find?_append_none _ _ _ hf]
      simp [List.find?, hid]
    have := hfirst out.1 g out.2 hfind
    exact this

/-- A second parsed record under the already-written id 1. -/
def pgameAlt : PGame :=
  { id := 1, title := "Other", authors := [("x", 9)], game_engine := "e",
    content_rating := "r", language := "l", release_date := ⟨2021, 1, 1, 0, 0, 0⟩,
    last_update := ⟨2021, 1, 1, 0, 0, 0⟩, version := "9.9", development_stage := "d",
    likes := 3, reviews := [], contest := none, orig_pc_gender := none, themes := none,
    thread := none, play_online := none, versions := [], synopsis := none, plot := none,
    characters := none, walkthrough := none, changelog := none }

/-- C10 witness: writing a different record with the already-present id 1
returns the existing row and leaves the whole database unchanged. -/
theorem c10_duplicate_id_witness :
    dbOutOk.games.find? (fun r => r.id = pgameAlt.id) = some rowOk ∧
    pgame_to_db_game dbOutOk pgameAlt = .ok (dbOutOk, rowOk) :=
  ⟨by decide, c10_duplicate_id.1 dbOutOk pgameAlt rowOk (by decide)⟩

/-- The record ids carried by a list of parse results. -/
def optIds (parsed : List (Option PGame)) : List Int :=
  parsed.filterMap (fun og => og.map (fun g => g.id))

theorem buildPGame_id (gid : Int) (d : DataAcc) (g : PGame)
    (h : buildPGame gid d = .ok g) : g.id = gid := by
  unfold buildPGame at h
  cases h1 : reqField "game_engine" d.gameEngine with
  | error e => simp only [h1] at h; exact Except.noConfusion h
  | ok ge =>
  simp only [h1] at h
  cases h2 : reqField "content_rating" d.contentRating with
  | error e => simp only [h2] at h; exact Except.noConfusion h
  | ok cr =>
  simp only [h2] at h
  cases h3 : reqField "language" d.language with
  | error e => simp only [h3] at h; exact Except.noConfusion h
  | ok lang =>
  simp only [h3] at h
  cases h4 : reqField "release_date" d.releaseDate with
  | error e => simp only [h4] at h; exact Except.noConfusion h
  | ok rd =>
  simp only [h4] at h
  cases h5 : reqField "last_update" d.lastUpdate with
  | error e => simp only [h5] at h; exact Except.noConfusion h
  | ok lu =>
  simp only [h5] at h
  cases h6 : reqField "version" d.version with
  | error e => simp only [h6] at h; exact Except.noConfusion h
  | ok ver =>
  simp only [h6] at h
  cases h7 : reqField "development_stage" d.developmentStage with
  | error e => simp only [h7] at h; exact Except.noConfusion h
  | ok dev =>
  simp only [h7] at h
  injection h with h8
  rw [← h8]

theorem parse_game_page_id (tax : List (Int × String)) (gid : Int) (pg : GamePageInput)
    (rb : List String) (g : PGame)
    (h : parse_game_page tax gid pg rb = .ok (some g)) : g.id = gid := by
  unfold parse_game_page at h
  cases hp : parseData tax pg rb with
  | error e => simp only [hp] at h; exact Except.noConfusion h
  | ok od =>
    cases od with
    | none =>
      simp only [hp] at h
      exact Option.noConfusion (Except.ok.inj h)
    | some d =>
      simp only [hp] at h
      cases hb : buildPGame gid d with
      | error e => rw [hb] at h; exact Except.noConfusion h
      | ok g2 =>
        rw [hb] at h
        simp only [Except.map] at h
        have h2 := Except.ok.inj h
        have h3 := Option.some.inj h2
        rw [← h3]
        exact buildPGame_id gid d g2 hb

theorem mapME_parse_ok (inp : CrawlInput) (l : List Int) (parsed : List (Option PGame))
    (h : mapME (fun gid => parse_game_page inp.authorsCat gid (inp.detailFor gid)
      (inp.reviewsFor gid)) l = .ok parsed) :
    optIds parsed = l.filter (isAccepted inp) := by
  induction l generalizing parsed with
  | nil =>
    injection h with h1
    rw [← h1]
    rfl
  | cons a as ih =>
    unfold mapME at h
    cases hfa : parse_game_page inp.authorsCat a (inp.detailFor a) (inp.reviewsFor a) with
    | error e => simp only [hfa] at h; exact Except.noConfusion h
    | ok b =>
      simp only [hfa] at h
      cases hrest : mapME (fun gid => parse_game_page inp.authorsCat gid (inp.detailFor gid)
          (inp.reviewsFor gid)) as with
      | error e => simp only [hrest] at h; exact Except.noConfusion h
      | ok bs =>
        simp only [hrest] at h
        injection h with h1
        rw [← h1]
        have ihh := ih bs hrest
        cases b with
        | none =>
          have hna : isAccepted inp a = false := by unfold isAccepted; rw [hfa]
          simpa [optIds, List.filterMap_cons, List.filter_cons, hna] using ihh
        | some g =>
          have hacc : isAccepted inp a = true := by unfold isAccepted; rw [hfa]
          have hid : g.id = a := parse_game_page_id _ _ _ _ _ hfa
          simpa [optIds, List.filterMap_cons, List.filter_cons, hacc, hid] using ihh

theorem dedupFirstAux_spec (l : List Int) : ∀ seen : List Int,
    (dedupFirstAux seen l).Nodup ∧ ∀ x ∈ dedupFirstAux seen l, x ∉ seen := by
  induction l with
  | nil =>
    intro seen
    exact ⟨List.nodup_nil, by simp [dedupFirstAux]⟩
  | cons a as ih =>
    intro seen
    by_cases hc : a ∈ seen
    · rw [dedupFirstAux, if_pos hc]
      exact ih seen
    · rw [dedupFirstAux, if_neg hc]
      obtain ⟨hnd, hmem⟩ := ih (a :: seen)
      refine ⟨List.nodup_cons.mpr ⟨?_, hnd⟩, ?_⟩
      · intro hx
        exact absurd (List.mem_cons_self a seen) (hmem a hx)
      · intro x hx
        rcases List.mem_cons.mp hx with h1 | h1
        · rw [h1]; exact hc
        · exact fun hm => (hmem x h1) (List.mem_cons_of_mem a hm)

theorem writeGames_ids (parsed : List (Option PGame)) : ∀ db db2 : DB,
    writeGames parsed db = .ok db2 →
    (optIds parsed).Nodup →
    (∀ g ∈ parsed.filterMap (fun og => og), ∀ r ∈ db.games, r.id ≠ g.id) →
    db2.games.map (fun r => r.id) = db.games.map (fun r => r.id) ++ optIds parsed := by
  induction parsed with
  | nil =>
    intro db db2 h _ _
    injection h with h1
    rw [← h1]
    simp [optIds]
  | cons og rest ih =>
    intro db db2 h hnd hdisj
    cases og with
    | none =>
      have hstep : writeGames (none :: rest) db = writeGames rest db := rfl
      rw [hstep] at h
      have := ih db db2 h (by simpa [optIds, List.filterMap_cons] using hnd)
        (fun g hg r hr => hdisj g (by simpa [List.filterMap_cons] using hg) r hr)
      simpa [optIds, List.filterMap_cons] using this
    | some g =>
      unfold writeGames foldlE at h
      cases hpg : pgame_to_db_game db g with
      | error e =>
        simp only [hpg, Except.map] at h
        exact Except.noConfusion h
      | ok out =>
        simp only [hpg, Except.map] at h
        have hfind : db.games.find? (fun r => r.id = g.id) = none := by
          rw [List.find?_eq_none]
          intro r hr
          have := hdisj g (by simp [List.filterMap_cons]) r hr
          simp [this]
        obtain ⟨hgames, hid⟩ := pgame_to_db_game_insert db g out hfind hpg
        have hndrest : (optIds rest).Nodup := by
          have := hnd
          simp only [optIds, List.filterMap_cons, Option.map_some] at this
          exact (List.nodup_cons.mp this).2
        have hgnotin : g.id ∉ optIds rest := by
          have := hnd
          simp only [optIds, List.filterMap_cons, Option.map_some] at this
          exact (List.nodup_cons.mp this).1
        have hdisjrest : ∀ g2 ∈ rest.filterMap (fun og => og), ∀ r ∈ out.1.games,
            r.id ≠ g2.id := by
          intro g2 hg2 r hr
          rw [hgames] at hr
          rcases List.mem_append.mp hr with h1 | h1
          · exact hdisj g2 (by simp [List.filterMap_cons, hg2]) r h1
          · have hr2 : r = out.2 := by simpa using h1
            rw [hr2, hid]
            intro heq
            apply hgnotin
            rw [heq]
            obtain ⟨og, hog, hogeq⟩ := List.mem_filterMap.mp hg2
            exact List.mem_filterMap.mpr ⟨og, hog, by rw [hogeq]; rfl⟩
        have ihh := ih out.1 db2 h hndrest hdisjrest
        rw [ihh, hgames]
        simp [optIds, List.filterMap_cons, hid, List.map_append]

theorem crawl_games_ids (inp : CrawlInput) (db : DB) (h : crawl inp = .ok db) :
    db.games.map (fun r => r.id) = acceptedIds inp := by
  unfold crawl at h
  by_cases hst : inp.indexStatus ≠ 200
  · rw [if_pos hst] at h
    exact Except.noConfusion h
  rw [if_neg hst] at h
  cases hids : selectedGameIds inp with
  | error e => simp only [hids] at h; exact Except.noConfusion h
  | ok ids =>
  simp only [hids] at h
  cases hmap : mapME (fun gid => parse_game_page inp.authorsCat gid (inp.detailFor gid)
      (inp.reviewsFor gid)) (dedupFirstAux [] ids) with
  | error e => simp only [hmap] at h; exact Except.noConfusion h
  | ok parsed =>
  simp only [hmap] at h
  have hfilter := mapME_parse_ok inp (dedupFirstAux [] ids) parsed hmap
  have hnd : (optIds parsed).Nodup := by
    rw [hfilter]
    exact ((dedupFirstAux_spec ids []).1).filter _
  have hdisj : ∀ g ∈ parsed.filterMap (fun og => og), ∀ r ∈ (taxDB inp).games,
      r.id ≠ g.id := by
    intro g _ r hr
    exact absurd hr (by simp [taxDB, emptyDB])
  have hw := writeGames_ids parsed (taxDB inp) db h hnd hdisj
  rw [hw, hfilter]
  unfold acceptedIds
  simp only [hids]
  simp [taxDB, emptyDB]

/-- Author resolution failure: a byline without hyperlinks whose slug does
not match exactly one `GameAuthor` row makes `parse_game_page` return
`None` (record discarded, no exception). -/
theorem parse_noauthor (tax : List (Int × String)) (gid : Int) (pg : GamePageInput)
    (rb : List String) (hnl : pg.bylineLinks = [])
    (hnm : (tax.filter (fun r =>
      r.2 = slugify (pyStrip (pyLstripSet "by" (pyStrip pg.bylineText))))).length ≠ 1) :
    parse_game_page tax gid pg rb = .ok none := by
  have hpa : parseAuthors tax pg = none := by
    unfold parseAuthors
    rw [if_neg (by rw [hnl]; simp)]
    cases hf : tax.filter (fun r =>
        r.2 = slugify (pyStrip (pyLstripSet "by" (pyStrip pg.bylineText)))) with
    | nil => simp only [hf]
    | cons r rest =>
      cases rest with
      | nil => exact absurd (by rw [hf]; rfl) hnm
      | cons r2 rest2 => simp only [hf]
  have hpd : parseData tax pg rb = .ok none := by
    unfold parseData
    simp only [hpa]
  unfold parse_game_page
  simp only [hpd]

/-- C4: a game whose byline has no hyperlinks and whose slug matches no
(unique) Author taxonomy row is absent from the committed catalog, while
the cycle that succeeded wrote exactly the accepted records of the other
games. -/
theorem c4_unresolvable_author (inp : CrawlInput) (db : DB) (gid : Int)
    (hnl : (inp.detailFor gid).bylineLinks = [])
    (hnm : ((inp.authorsCat).filter (fun r =>
      r.2 = slugify (pyStrip (pyLstripSet "by" (pyStrip (inp.detailFor gid).bylineText))))).length ≠ 1)
    (hok : crawl inp = .ok db) :
    gid ∉ db.games.map (fun r => r.id) ∧
    db.games.map (fun r => r.id) = acceptedIds inp := by
  have hparse := parse_noauthor inp.authorsCat gid (inp.detailFor gid) (inp.reviewsFor gid)
    hnl hnm
  have hids := crawl_games_ids inp db hok
  refine ⟨?_, hids⟩
  rw [hids]
  unfold acceptedIds
  cases hsel : selectedGameIds inp with
  | error e => simp
  | ok ids =>
    intro hmem
    have hacc := List.of_mem_filter hmem
    unfold isAccepted at hacc
    rw [hparse] at hacc
    exact Bool.noConfusion hacc

/-- C4 witness: in the two-game cycle, the unresolvable-author game 2 is
absent, games ids equal the accepted ids, and game 1 was written. -/
theorem c4_unresolvable_author_witness :
    (inpTwo.detailFor 2).bylineLinks = [] ∧
    crawl inpTwo = .ok dbOutOk ∧
    acceptedIds inpTwo = [1] ∧
    ((2 : Int) ∉ dbOutOk.games.map (fun r => r.id) ∧
     dbOutOk.games.map (fun r => r.id) = acceptedIds inpTwo) := by
  refine ⟨by decide, by decide, by decide, ?_⟩
  exact c4_unresolvable_author inpTwo dbOutOk 2 (by decide) (by decide) (by decide)

/-- C1 amended: a successful cycle commits a catalog holding exactly one
row per accepted record (and nothing of the prior cycle — the result does
not depend on the prior state at all), but the observable games-table
trace is prior → empty → final: the empty catalog committed by the initial
drop *is* observable by concurrent readers; only a partially replaced
catalog is not, since the inserts commit with the single session. -/
theorem c1_snapshot_replace (prior : DB) (inp : CrawlInput) (db : DB)
    (h : crawl inp = .ok db) :
    db.games.map (fun r => r.id) = acceptedIds inp ∧
    crawlGamesTrace prior inp = [prior.games, [], db.games] := by
  refine ⟨crawl_games_ids inp db h, ?_⟩
  unfold crawlGamesTrace
  rw [h]

/-- C1 witness: the concrete one-game cycle commits exactly the accepted
record and its trace is prior → empty → final. -/
theorem c1_snapshot_replace_witness :
    crawl inpOk = .ok dbOutOk ∧
    (dbOutOk.games.map (fun r => r.id) = acceptedIds inpOk ∧
     crawlGamesTrace priorDB inpOk = [priorDB.games, [], dbOutOk.games]) :=
  ⟨by decide, c1_snapshot_replace priorDB inpOk dbOutOk (by decide)⟩

/-- C1 counterexample: a successful cycle whose prior and new catalogs are
both non-empty still exposes the empty games table to concurrent readers
(the state between the initial drop and the final commit), refuting "at no
point during the cycle does a concurrent reader observe an empty
catalog". -/
theorem c1_counterexample :
    crawl inpOk = .ok dbOutOk ∧
    priorDB.games ≠ [] ∧
    dbOutOk.games ≠ [] ∧
    [] ∈ crawlGamesTrace priorDB inpOk := by
  exact ⟨by decide, by decide, by decide, by decide⟩

/-- `inpOk` with a failing game-index response. -/
def inp500 : CrawlInput := { inpOk with indexStatus := 500 }

/-- C2 amended: a non-success game-index response is fatal and aborts
before any *game record* is written — but the prior snapshot was already
destroyed by the drop at cycle start, so the catalog a reader sees after
the aborted cycle is empty, not the prior snapshot. -/
theorem c2_fatal_after_drop (prior : DB) (inp : CrawlInput) (h : inp.indexStatus ≠ 200) :
    crawl inp = .error "Not status code 200" ∧
    crawlGamesTrace prior inp = [prior.games, []] := by
  have hc : crawl inp = .error "Not status code 200" := by
    unfold crawl
    rw [if_pos h]
  exact ⟨hc, by unfold crawlGamesTrace; rw [hc]⟩

/-- C2 witness: the concrete non-200 cycle raises and leaves the trace
prior → empty. -/
theorem c2_fatal_after_drop_witness :
    inp500.indexStatus ≠ 200 ∧
    (crawl inp500 = .error "Not status code 200" ∧
     crawlGamesTrace priorDB inp500 = [priorDB.games, []]) :=
  ⟨by decide, c2_fatal_after_drop priorDB inp500 (by decide)⟩

/-- C2 counterexample: after the aborted cycle the last observable catalog
state is the empty table, not the prior snapshot — the prior snapshot does
not remain intact, refuting the claim's conclusion. -/
theorem c2_counterexample :
    crawl inp500 = .error "Not status code 200" ∧
    (crawlGamesTrace priorDB inp500).getLast? = some [] ∧
    priorDB.games ≠ [] := by
  exact ⟨by decide, by decide, by decide⟩

end TFGS
